import Mathlib

/-!
Verification development for the Google Drive reader
(llama_index/readers/google/drive/base.py).

The reader is shallowly embedded: the Google Drive service is a record of
functions (a provider), every remote call can fail (Except), mutation of the
caller-supplied mime_types list is threaded as explicit state, Python tuple
truthiness is modelled on lists, the unbounded while/recursion is given a fuel
parameter whose exhaustion is reported as a distinguished timeout outcome, and
observable side effects (remote calls, token-file writes, log lines) are
returned as an explicit effect trace.
-/

namespace GDrive

/-- Python truthiness of an Optional[str]: None and the empty string are falsy. -/
def pyTruthyStr : Option String → Bool
  | none => false
  | some s => !(s == "")

/-- Python truthiness of an Optional[List[str]]: None and the empty list are falsy. -/
def pyTruthyList : Option (List String) → Bool
  | none => false
  | some l => !l.isEmpty

/-- Python truthiness of a tuple (modelled as a list): any non-empty tuple is truthy. -/
def pyTruthyTuple (t : List Bool) : Bool := !t.isEmpty

/-- First-match lookup in an association list; Python dict access where the
dict is modelled with most recent insertions in front. -/
def dictFind {K V : Type} [DecidableEq K] : List (K × V) → K → Option V
  | [], _ => none
  | e :: rest, k => if e.1 = k then some e.2 else dictFind rest k

/-- Python dict assignment: the new binding shadows any previous one. -/
def dictInsert {K V : Type} [DecidableEq K] (d : List (K × V)) (k : K) (v : V) :
    List (K × V) :=
  (k, v) :: d

/-- mimeType of Google Drive folders (base.py line 188). -/
def folderMimeType : String := "application/vnd.google-apps.folder"

def gdocMimeType : String := "application/vnd.google-apps.document"

def gsheetMimeType : String := "application/vnd.google-apps.spreadsheet"

def gslidesMimeType : String := "application/vnd.google-apps.presentation"

def docxMimeType : String :=
  "application/vnd.openxmlformats-officedocument.wordprocessingml.document"

def xlsxMimeType : String :=
  "application/vnd.openxmlformats-officedocument.spreadsheetml.sheet"

def pptxMimeType : String :=
  "application/vnd.openxmlformats-officedocument.presentationml.presentation"

/-- Read-only scope requested for every credential (base.py line 22). -/
def SCOPES : List String := ["https://www.googleapis.com/auth/drive.readonly"]

/-- One entry of the `_mimetypes` conversion table (base.py lines 81-96). -/
structure MimeRule where
  mimetype : String
  extension : String
deriving DecidableEq, Repr

/-- The `_mimetypes` table set up in `__init__` (base.py lines 81-96). -/
def mimetypesTable : List (String × MimeRule) :=
  [ (gdocMimeType, { mimetype := docxMimeType, extension := (".docx") }),
    (gsheetMimeType, { mimetype := xlsxMimeType, extension := (".xlsx") }),
    (gslidesMimeType, { mimetype := pptxMimeType, extension := (".pptx") }) ]

/-- A Drive item as returned by files().list / files().get: the fields the
reader touches.  hasDriveId models the membership test for the driveId key;
ownersFirstDisplayName models item.owners[0].displayName. -/
structure Item where
  id : String
  name : String
  mimeType : String
  createdTime : String
  modifiedTime : String
  ownersFirstDisplayName : String
  hasDriveId : Bool
deriving DecidableEq, Repr

/-- The 6-field metadata tuple built by `_get_fileids_meta`
(id, author, name, mimeType, createdTime, modifiedTime). -/
structure FileMeta where
  id : String
  author : String
  name : String
  mimeType : String
  createdTime : String
  modifiedTime : String
deriving DecidableEq, Repr

/-- Structural rendering of the query string built in `_get_fileids_meta`
(base.py lines 189-205): parent clause, optional OR-group of mimeType
equalities, optional OR of folder-mimeType with the caller query string. -/
structure Query where
  parentId : String
  mimeOr : Option (List String)
  qsOr : Option String
deriving DecidableEq, Repr

/-- The parameters of one files().list call.  Note there is deliberately no
pageToken field: the source never passes the continuation token back
(base.py lines 209-233). -/
structure ListRequest where
  q : Query
  driveId : Option String
deriving DecidableEq, Repr

/-- The reply of one files().list call. -/
structure ListResponse where
  files : List Item
  nextPageToken : Option String
deriving DecidableEq, Repr

/-- The media request issued by `_download_file` (base.py lines 334-341). -/
inductive DlRequest where
  | exportMedia (fileId : String) (mimeType : String)
  | getMedia (fileId : String)
deriving DecidableEq, Repr

/-- Exceptions that can cross the modelled code. -/
inductive Err where
  | apiError
  | typeError
  | keyError
deriving DecidableEq, Repr

/-- Observable side effects of the reader, in program order. -/
inductive Effect where
  | listFiles (req : ListRequest)
  | getFile (fileId : Option String)
  | download (req : DlRequest)
  | refreshRequest
  | runLocalServerFlow
  | writeTokenFile
  | logError (op : String)
  | logWarning
deriving DecidableEq, Repr

/-- Remote network interactions (Drive API or the auth server). -/
def Effect.isRemote : Effect → Bool
  | .listFiles _ => true
  | .getFile _ => true
  | .download _ => true
  | .refreshRequest => true
  | .runLocalServerFlow => true
  | _ => false

/-- Drive API calls proper (listing, metadata fetch, content download). -/
def Effect.isDriveCall : Effect → Bool
  | .listFiles _ => true
  | .getFile _ => true
  | .download _ => true
  | _ => false

/-- Outcome of a piece of Python code under a fuel bound: the fuel ran out
before the code finished (timeout), an exception escaped it (raised), or it
returned a value. -/
inductive PyResult (α : Type) where
  | timeout
  | raised (e : Err)
  | ok (a : α)
deriving DecidableEq, Repr

/-- The Google Drive service handle produced by build(...): the three remote
entry points the reader uses.  filesGet takes the Optional fileId exactly as
the source passes it; downloadChunks returns the chunk sequence that the
MediaIoBaseDownload loop concatenates. -/
structure Svc where
  filesList : ListRequest → Except Err ListResponse
  filesGet : Option String → Except Err Item
  downloadChunks : DlRequest → Except Err (List String)

/-! ## Credential provider (`__init__` lines 77-78, `_get_credentials` lines 127-161) -/

/-- State of a google.oauth2 user credential as the reader inspects it. -/
structure UserCred where
  valid : Bool
  expired : Bool
  refresh_token : Bool
deriving DecidableEq, Repr

/-- Constructor inputs that decide credential resolution, plus the is_cloud
flag passed to `__init__`. -/
structure Reader where
  authorized_user_info : Option UserCred
  service_account_key : Bool
  client_config : Bool
  is_cloud : Bool
deriving DecidableEq, Repr

/-- A resolved credential: a user credential or a service-account credential
with its scope list. -/
inductive Cred where
  | user (c : UserCred)
  | service (scopes : List String)
deriving DecidableEq, Repr

/-- creds.refresh(Request()) leaves a valid, unexpired credential in place. -/
def refreshCred (c : UserCred) : UserCred :=
  { c with valid := true, expired := false }

/-- The fresh user credential produced by InstalledAppFlow.run_local_server. -/
def flowCred : UserCred :=
  { valid := true, expired := false, refresh_token := true }

/-- base.py line 78: `self._is_cloud = (is_cloud,)` — the flag is wrapped in a
one-element tuple by the trailing comma. -/
def isCloudAttr (r : Reader) : List Bool := [r.is_cloud]

/-- base.py lines 157-159: `if not self._is_cloud:` write the token file.
The condition tests the truthiness of the stored tuple, not of the flag. -/
def tokenWriteEffects (r : Reader) : List Effect :=
  if pyTruthyTuple (isCloudAttr r) then [] else [Effect.writeTokenFile]

/-- base.py lines 149-159: `if not creds or not creds.valid:` refresh when
expired with a refresh token, otherwise run the consent flow; then save the
credentials for the next run (guarded by the tuple-valued _is_cloud). -/
def finishUserCred (r : Reader) (creds : Option UserCred) : Cred × List Effect :=
  match creds with
  | some c =>
    if c.valid then (Cred.user c, [])
    else if c.expired && c.refresh_token then
      (Cred.user (refreshCred c), Effect.refreshRequest :: tokenWriteEffects r)
    else
      (Cred.user flowCred, Effect.runLocalServerFlow :: tokenWriteEffects r)
  | none =>
    (Cred.user flowCred, Effect.runLocalServerFlow :: tokenWriteEffects r)

/-- `_get_credentials` (base.py lines 137-161): build from saved authorized
user info when present; else return a service-account credential immediately;
else fall through with creds = None into the consent flow. -/
def getCredentials (r : Reader) : Cred × List Effect :=
  match r.authorized_user_info with
  | some info => finishUserCred r (some info)
  | none =>
    if r.service_account_key then (Cred.service SCOPES, [])
    else finishUserCred r none

/-- Reader built with is_cloud = False whose saved user credential is expired
but refreshable: the claimed token-file write should happen here. -/
def readerNonCloud : Reader :=
  { authorized_user_info := some { valid := false, expired := true, refresh_token := true },
    service_account_key := false, client_config := true, is_cloud := false }

/-- C2: the claim says a reader constructed with is_cloud = False writes the
refreshed credential to the token file.  The code stores `(is_cloud,)` — a
one-element tuple, truthy for both flag values — so `if not self._is_cloud:`
is always false and the token file is never written.  Evaluated at the failing
input: is_cloud = False with an expired refreshable saved credential. -/
theorem C2_token_file_never_written :
    readerNonCloud.is_cloud = false
    ∧ pyTruthyTuple (isCloudAttr readerNonCloud) = true
    ∧ getCredentials readerNonCloud
        = (Cred.user (refreshCred { valid := false, expired := true, refresh_token := true }),
           [Effect.refreshRequest])
    ∧ Effect.writeTokenFile ∉ (getCredentials readerNonCloud).2 := by
  refine ⟨rfl, rfl, rfl, ?_⟩
  decide

/-- C8: credential resolution order of `_get_credentials`: (1) saved
authorized-user info builds a user credential directly (returned as is when
valid, refreshed in place — no consent flow — when expired with a refresh
token); (2) otherwise a service-account key yields a read-only-scoped service
credential immediately with no interactive effects; (3) otherwise the
local-server consent flow runs. -/
theorem C8_credential_resolution (r : Reader) (info : UserCred) :
    (r.authorized_user_info = some info → info.valid = true →
      getCredentials r = (Cred.user info, []))
    ∧ (r.authorized_user_info = some info → info.valid = false → info.expired = true →
        info.refresh_token = true →
        getCredentials r
          = (Cred.user (refreshCred info), Effect.refreshRequest :: tokenWriteEffects r))
    ∧ (r.authorized_user_info = none → r.service_account_key = true →
        getCredentials r = (Cred.service SCOPES, []))
    ∧ (r.authorized_user_info = none → r.service_account_key = false →
        getCredentials r
          = (Cred.user flowCred, Effect.runLocalServerFlow :: tokenWriteEffects r)) := by
  refine ⟨?_, ?_, ?_, ?_⟩
  · intro h hv
    simp [getCredentials, h, finishUserCred, hv]
  · intro h hv he hr
    simp [getCredentials, h, finishUserCred, hv, he, hr]
  · intro h hk
    simp [getCredentials, h, hk]
  · intro h hk
    simp [getCredentials, h, hk, finishUserCred]

def readerValidInfo : Reader :=
  { authorized_user_info := some { valid := true, expired := false, refresh_token := false },
    service_account_key := false, client_config := true, is_cloud := false }

def readerServiceKey : Reader :=
  { authorized_user_info := none,
    service_account_key := true, client_config := false, is_cloud := false }

def readerFlowOnly : Reader :=
  { authorized_user_info := none,
    service_account_key := false, client_config := true, is_cloud := true }

theorem C8_credential_resolution_witness :
    getCredentials readerValidInfo
      = (Cred.user { valid := true, expired := false, refresh_token := false }, [])
    ∧ getCredentials readerNonCloud
      = (Cred.user (refreshCred { valid := false, expired := true, refresh_token := true }),
         Effect.refreshRequest :: tokenWriteEffects readerNonCloud)
    ∧ getCredentials readerServiceKey = (Cred.service SCOPES, [])
    ∧ getCredentials readerFlowOnly
      = (Cred.user flowCred, Effect.runLocalServerFlow :: tokenWriteEffects readerFlowOnly) := by
  refine ⟨?_, ?_, ?_, ?_⟩
  · exact (C8_credential_resolution readerValidInfo
      { valid := true, expired := false, refresh_token := false }).1 rfl rfl
  · exact (C8_credential_resolution readerNonCloud
      { valid := false, expired := true, refresh_token := true }).2.1 rfl rfl rfl rfl
  · exact (C8_credential_resolution readerServiceKey flowCred).2.2.1 rfl rfl
  · exact (C8_credential_resolution readerFlowOnly flowCred).2.2.2 rfl rfl

/-! ## Metadata enumerator (`_get_fileids_meta`, base.py lines 163-308) -/

/-- base.py lines 192-198: append the folder mimeType to the caller's list
when missing (mutating it), so recursion is never filtered out. -/
def withFolder (l : List String) : List String :=
  if folderMimeType ∈ l then l else l ++ [folderMimeType]

/-- base.py lines 201-205: `if query_string:` — the clause is added only for a
truthy (non-empty) query string. -/
def qsPart (query_string : Option String) : Option String :=
  if pyTruthyStr query_string then some (query_string.getD ("")) else none

/-- base.py lines 188-205: build the list query for a folder and perform the
in-place mutation of mime_types; returns the query together with the value the
caller's list holds afterwards. -/
def buildFolderQuery (folder_id : String) (mime_types : Option (List String))
    (query_string : Option String) : Query × Option (List String) :=
  if pyTruthyList mime_types then
    let l := withFolder (mime_types.getD [])
    ({ parentId := folder_id, mimeOr := some l, qsOr := qsPart query_string }, some l)
  else
    ({ parentId := folder_id, mimeOr := none, qsOr := qsPart query_string }, mime_types)

/-- base.py lines 259-276 and 285-302: author is the literal Shared Drive when
the item carries a driveId, else the first owner's display name. -/
def itemMeta (it : Item) : FileMeta :=
  { id := it.id
    author := if it.hasDriveId then ("Shared Drive") else it.ownersFirstDisplayName
    name := it.name
    mimeType := it.mimeType
    createdTime := it.createdTime
    modifiedTime := it.modifiedTime }

/-- base.py lines 209-237: the pagination while-loop.  Each iteration performs
the same files().list call (the request carries no pageToken) and extends the
accumulator; it exits only when the response carries no nextPageToken.  A none
first component means the fuel ran out, i.e. the loop had not terminated after
that many iterations. -/
def pageLoop (svc : Svc) (req : ListRequest) :
    Nat → List Item → Option (Except Err (List Item)) × List Effect
  | 0, _ => (none, [])
  | fuel + 1, items =>
    match svc.filesList req with
    | .error e => (some (.error e), [Effect.listFiles req])
    | .ok results =>
      let acc := items ++ results.files
      match results.nextPageToken with
      | none => (some (.ok acc), [Effect.listFiles req])
      | some _ =>
        let r := pageLoop svc req fuel acc
        (r.1, Effect.listFiles req :: r.2)

def fileidsMetaErrMsg : String := "An error occurred while getting fileids metadata"

/-- The try/except boundary of `_get_fileids_meta` (base.py lines 184, 305-308):
an escaping exception is logged and turned into the absent result None. -/
def catchFileids (x : PyResult (List FileMeta) × Option (List String) × List Effect) :
    PyResult (Option (List FileMeta)) × Option (List String) × List Effect :=
  match x with
  | (.timeout, m, effs) => (.timeout, m, effs)
  | (.raised _, m, effs) => (.ok none, m, effs ++ [Effect.logError fileidsMetaErrMsg])
  | (.ok v, m, effs) => (.ok (some v), m, effs)

/-- base.py lines 239-276: the for-loop over the accumulated items.  Folder
items trigger a recursive call to the caught function; a recursive call that
returned None makes fileids_meta.extend(None) raise a TypeError; non-folder
items append their metadata tuple.  The mime_types state is threaded exactly
as the shared Python list object flows through the calls. -/
def processItems
    (recurse : String → Option (List String) →
      PyResult (Option (List FileMeta)) × Option (List String) × List Effect) :
    List Item → Option (List String) →
    PyResult (List FileMeta) × Option (List String) × List Effect
  | [], mts => (.ok [], mts, [])
  | it :: rest, mts =>
    if it.mimeType = folderMimeType then
      match recurse it.id mts with
      | (.timeout, m, effs) => (.timeout, m, effs)
      | (.raised e, m, effs) => (.raised e, m, effs)
      | (.ok none, m, effs) => (.raised Err.typeError, m, effs)
      | (.ok (some metas), m, effs) =>
        match processItems recurse rest m with
        | (.ok tail, m2, effs2) => (.ok (metas ++ tail), m2, effs ++ effs2)
        | (r, m2, effs2) => (r, m2, effs ++ effs2)
    else
      match processItems recurse rest mts with
      | (.ok tail, m2, effs2) => (.ok (itemMeta it :: tail), m2, effs2)
      | (r, m2, effs2) => (r, m2, effs2)

/-- Body of `_get_fileids_meta` inside the try (base.py lines 185-303): folder
mode builds the query (mutating mime_types), runs the pagination loop and the
item loop; file mode performs a single files().get.  fuel bounds the recursion
depth and the pagination loop. -/
def getFileidsMetaBody (svc : Svc) :
    Nat → Option String → Option String → Option String → Option (List String) →
    Option String →
    PyResult (List FileMeta) × Option (List String) × List Effect
  | 0, _, _, _, mts, _ => (.timeout, mts, [])
  | fuel + 1, drive_id, folder_id, file_id, mts, qs =>
    if pyTruthyStr folder_id then
      let bq := buildFolderQuery (folder_id.getD ("")) mts qs
      let req : ListRequest := { q := bq.1, driveId := drive_id }
      match pageLoop svc req (fuel + 1) [] with
      | (none, effs) => (.timeout, bq.2, effs)
      | (some (.error e), effs) => (.raised e, bq.2, effs)
      | (some (.ok items), effs) =>
        let pr := processItems
          (fun fid m => catchFileids (getFileidsMetaBody svc fuel drive_id (some fid) none m qs))
          items bq.2
        (pr.1, pr.2.1, effs ++ pr.2.2)
    else
      match svc.filesGet file_id with
      | .error e => (.raised e, mts, [Effect.getFile file_id])
      | .ok file => (.ok [itemMeta file], mts, [Effect.getFile file_id])

/-- `_get_fileids_meta` with its try/except boundary. -/
def getFileidsMeta (svc : Svc) (fuel : Nat)
    (drive_id folder_id file_id : Option String) (mts : Option (List String))
    (qs : Option String) :
    PyResult (Option (List FileMeta)) × Option (List String) × List Effect :=
  catchFileids (getFileidsMetaBody svc fuel drive_id folder_id file_id mts qs)

/-- A provider whose (stateless) answer to the token-free list request the
reader builds is a fixed page; carrying a nextPageToken models a listing that
has further pages. -/
def pagedSvc (files : List Item) (tok : Option String) : Svc :=
  { filesList := fun _ => .ok { files := files, nextPageToken := tok }
    filesGet := fun _ => .error Err.apiError
    downloadChunks := fun _ => .error Err.apiError }

def itemA : Item :=
  { id := ("A"), name := ("a.pdf"), mimeType := ("application/pdf"),
    createdTime := ("c1"), modifiedTime := ("m1"),
    ownersFirstDisplayName := ("alice"), hasDriveId := false }

def itemB : Item :=
  { id := ("B"), name := ("b.pdf"), mimeType := ("application/pdf"),
    createdTime := ("c2"), modifiedTime := ("m2"),
    ownersFirstDisplayName := ("bob"), hasDriveId := false }

theorem pageLoop_paged_some_tok (files : List Item) (t : String) (req : ListRequest) :
    ∀ fuel acc, (pageLoop (pagedSvc files (some t)) req fuel acc).1 = none := by
  intro fuel
  induction fuel with
  | zero => intro acc; rfl
  | succ n ih =>
    intro acc
    simpa [pageLoop, pagedSvc] using ih (acc ++ files)

/-- C1: the claim says enumeration over an N-page listing terminates with the
concatenation of the pages.  The loop never sends the provider's continuation
token back (the list request has no pageToken), so against a provider whose
listing has a second page — the stateless reply to the only request the code
can make carries a nextPageToken — the while-loop never exits: for every fuel
bound the enumeration is still running.  With a single page (no token) it does
terminate with that page's items in order. -/
theorem C1_pagination_never_requests_next_page :
    (∀ fuel, (getFileidsMeta (pagedSvc [itemA, itemB] (some ("tok"))) fuel
        none (some ("F")) none none none).1 = PyResult.timeout)
    ∧ (getFileidsMeta (pagedSvc [itemA, itemB] none) 1
        none (some ("F")) none none none).1
      = PyResult.ok (some [itemMeta itemA, itemMeta itemB]) := by
  constructor
  · intro fuel
    cases fuel with
    | zero => rfl
    | succ n =>
      cases hp : pageLoop (pagedSvc [itemA, itemB] (some ("tok")))
          { q := { parentId := ("F"), mimeOr := none, qsOr := none }, driveId := none }
          (n + 1) [] with
      | mk fst snd =>
        have h := pageLoop_paged_some_tok [itemA, itemB] ("tok")
          { q := { parentId := ("F"), mimeOr := none, qsOr := none }, driveId := none }
          (n + 1) []
        rw [hp] at h
        simp at h
        subst h
        simp +decide [getFileidsMeta, getFileidsMetaBody, buildFolderQuery, pyTruthyStr,
          pyTruthyList, qsPart, catchFileids, hp]
  · decide

/-! ## A query-honouring mock provider over a parent-linked item store -/

/-- One stored Drive object: an item plus the id of its parent. -/
structure DriveNode where
  item : Item
  parent : String
deriving DecidableEq, Repr

/-- Does an item satisfy the mimeType OR-group of the query? -/
def matchesMime (q : Query) (it : Item) : Bool :=
  match q.mimeOr with
  | none => true
  | some l => decide (it.mimeType ∈ l)

/-- Does an item satisfy the folder-or-query-string clause of the query? -/
def matchesQs (qsSem : String → Item → Bool) (q : Query) (it : Item) : Bool :=
  match q.qsOr with
  | none => true
  | some s => decide (it.mimeType = folderMimeType) || qsSem s it

def nodeMatches (qsSem : String → Item → Bool) (q : Query) (n : DriveNode) : Bool :=
  decide (n.parent = q.parentId) && matchesMime q n.item && matchesQs qsSem q n.item

/-- The single result page a query-honouring provider returns. -/
def treeList (drive : List DriveNode) (qsSem : String → Item → Bool) (q : Query) :
    List Item :=
  (drive.filter (nodeMatches qsSem q)).map DriveNode.item

/-- A mock provider backed by a flat parent-linked store that honours the
structural query; every listing fits in one page, qsSem interprets the opaque
caller query string. -/
def treeSvc (drive : List DriveNode) (qsSem : String → Item → Bool) : Svc :=
  { filesList := fun req =>
      .ok { files := treeList drive qsSem req.q, nextPageToken := none }
    filesGet := fun fid =>
      match fid with
      | none => .error Err.apiError
      | some f =>
        match drive.find? (fun n => n.item.id == f) with
        | some n => .ok n.item
        | none => .error Err.apiError
    downloadChunks := fun _ => .ok [("data")] }

theorem pageLoop_treeSvc (drive : List DriveNode) (qsSem : String → Item → Bool)
    (req : ListRequest) (acc : List Item) (fuel : Nat) :
    pageLoop (treeSvc drive qsSem) req (fuel + 1) acc
      = (some (.ok (acc ++ treeList drive qsSem req.q)), [Effect.listFiles req]) := by
  simp [pageLoop, treeSvc]

/-! ## Facts about the mime_types mutation -/

theorem folder_mem_withFolder (l : List String) : folderMimeType ∈ withFolder l := by
  unfold withFolder
  split
  · assumption
  · simp

theorem withFolder_eq_of_mem {l : List String} (h : folderMimeType ∈ l) :
    withFolder l = l := by
  simp [withFolder, h]

theorem withFolder_ne_nil (l : List String) : withFolder l ≠ [] := by
  unfold withFolder
  split
  · intro hc
    subst hc
    simp_all
  · simp

theorem mem_of_mem_withFolder {l : List String} {x : String}
    (h : x ∈ withFolder l) : x = folderMimeType ∨ x ∈ l := by
  unfold withFolder at h
  split at h
  · exact Or.inr h
  · rcases List.mem_append.mp h with h1 | h2
    · exact Or.inr h1
    · simp at h2
      exact Or.inl h2

theorem pyTruthyList_of_ne_nil {L : List String} (h : L ≠ []) :
    pyTruthyList (some L) = true := by
  cases L with
  | nil => exact absurd rfl h
  | cons a t => rfl

theorem catchFileids_mts (x : PyResult (List FileMeta) × Option (List String) × List Effect) :
    (catchFileids x).2.1 = x.2.1 := by
  obtain ⟨r, m, effs⟩ := x
  cases r <;> rfl

theorem catchFileids_ok_iff
    (x : PyResult (List FileMeta) × Option (List String) × List Effect)
    (v : List FileMeta) :
    (catchFileids x).1 = PyResult.ok (some v) ↔ x.1 = PyResult.ok v := by
  obtain ⟨r, m, effs⟩ := x
  cases r <;> simp [catchFileids]

/-- The item loop threads the shared mime_types object through every
recursive call; if each call leaves it unchanged, so does the whole loop. -/
theorem processItems_mts_inv
    (recurse : String → Option (List String) →
      PyResult (Option (List FileMeta)) × Option (List String) × List Effect)
    (m₀ : Option (List String))
    (hrec : ∀ fid, (recurse fid m₀).2.1 = m₀) :
    ∀ items, (processItems recurse items m₀).2.1 = m₀ := by
  intro items
  induction items with
  | nil => rfl
  | cons a rest ih =>
    by_cases hf : a.mimeType = folderMimeType
    · simp only [processItems, if_pos hf]
      have h1 := hrec a.id
      cases hr : recurse a.id m₀ with
      | mk r1 ms =>
        obtain ⟨m1, effs1⟩ := ms
        rw [hr] at h1
        have hm : m1 = m₀ := h1
        cases r1 with
        | timeout => exact hm
        | raised e => exact hm
        | ok v =>
          cases v with
          | none => exact hm
          | some metas =>
            simp only
            rw [hm]
            cases hrest : processItems recurse rest m₀ with
            | mk r2 ms2 =>
              obtain ⟨m2, effs2⟩ := ms2
              have h2 := ih
              rw [hrest] at h2
              cases r2 <;> exact h2
    · simp only [processItems, if_neg hf]
      cases hrest : processItems recurse rest m₀ with
      | mk r2 ms2 =>
        obtain ⟨m2, effs2⟩ := ms2
        have h2 := ih
        rw [hrest] at h2
        cases r2 <;> exact h2

/-- Once the folder mimeType is in the (shared) mime_types list, no call in
the recursion changes the list again. -/
theorem getFileidsMetaBody_mts (svc : Svc) :
    ∀ fuel (did fo fi : Option String) (qs : Option String) (L : List String),
      folderMimeType ∈ L →
      (getFileidsMetaBody svc fuel did fo fi (some L) qs).2.1 = some L := by
  intro fuel
  induction fuel with
  | zero => intro did fo fi qs L hL; rfl
  | succ n ih =>
    intro did fo fi qs L hL
    by_cases hfo : pyTruthyStr fo = true
    · have hLne : L ≠ [] := List.ne_nil_of_mem hL
      have hwf : withFolder L = L := withFolder_eq_of_mem hL
      simp only [getFileidsMetaBody, hfo, if_pos, buildFolderQuery,
        pyTruthyList_of_ne_nil hLne, Option.getD_some, hwf, if_true]
      cases hp : pageLoop svc
          { q := { parentId := fo.getD (""), mimeOr := some L, qsOr := qsPart qs },
            driveId := did } (n + 1) [] with
      | mk r1 effs1 =>
        match r1 with
        | none => rfl
        | some (.error e) => rfl
        | some (.ok items) =>
          simp only
          exact processItems_mts_inv _ (some L)
            (fun fid => by
              rw [catchFileids_mts]
              exact ih did (some fid) none qs L hL) items
    · have hfo2 : pyTruthyStr fo = false := by
        cases h2 : pyTruthyStr fo
        · rfl
        · exact absurd h2 hfo
      simp only [getFileidsMetaBody, hfo2, Bool.false_eq_true, if_false]
      cases svc.filesGet fi <;> rfl

/-- After one folder-mode step on a truthy mime_types list the shared list
holds withFolder L, and it keeps that value for the rest of the call. -/
theorem getFileidsMetaBody_mts_succ (svc : Svc) (n : Nat)
    (did fo fi : Option String) (qs : Option String) (L : List String)
    (hfo : pyTruthyStr fo = true) (hL : L ≠ []) :
    (getFileidsMetaBody svc (n + 1) did fo fi (some L) qs).2.1
      = some (withFolder L) := by
  simp only [getFileidsMetaBody, hfo, if_pos, buildFolderQuery,
    pyTruthyList_of_ne_nil hL, Option.getD_some, if_true]
  cases hp : pageLoop svc
      { q := { parentId := fo.getD (""), mimeOr := some (withFolder L), qsOr := qsPart qs },
        driveId := did } (n + 1) [] with
  | mk r1 effs1 =>
    match r1 with
    | none => rfl
    | some (.error e) => rfl
    | some (.ok items) =>
      simp only
      exact processItems_mts_inv _ (some (withFolder L))
        (fun fid => by
          rw [catchFileids_mts]
          exact getFileidsMetaBody_mts svc n did (some fid) none qs (withFolder L)
            (folder_mem_withFolder L)) items

/-! ## Mime-filter and recursion properties of folder enumeration (C5) -/

theorem treeList_mime {drive : List DriveNode} {qsSem : String → Item → Bool}
    {q : Query} {it : Item} (h : it ∈ treeList drive qsSem q)
    {l : List String} (hq : q.mimeOr = some l) : it.mimeType ∈ l := by
  simp only [treeList, List.mem_map] at h
  obtain ⟨nd, hnd, rfl⟩ := h
  have hm := (List.mem_filter.mp hnd).2
  simp only [nodeMatches, Bool.and_eq_true] at hm
  have := hm.1.2
  rw [matchesMime, hq] at this
  exact of_decide_eq_true this

theorem mem_treeList {drive : List DriveNode} {qsSem : String → Item → Bool}
    {q : Query} {nd : DriveNode} (h : nd ∈ drive)
    (hm : nodeMatches qsSem q nd = true) : nd.item ∈ treeList drive qsSem q := by
  simp only [treeList, List.mem_map]
  exact ⟨nd, List.mem_filter.mpr ⟨h, hm⟩, rfl⟩

theorem nodeMatches_folder {qsSem : String → Item → Bool} {nd : DriveNode}
    {fid : String} {l : List String} {qso : Option String}
    (hp : nd.parent = fid) (hf : nd.item.mimeType = folderMimeType)
    (hl : folderMimeType ∈ l) :
    nodeMatches qsSem { parentId := fid, mimeOr := some l, qsOr := qso } nd = true := by
  simp only [nodeMatches, Bool.and_eq_true]
  refine ⟨⟨by simp [hp], ?_⟩, ?_⟩
  · rw [matchesMime]
    simp only
    rw [hf]
    exact decide_eq_true hl
  · rw [matchesQs]
    cases qso with
    | none => rfl
    | some s =>
      simp only
      rw [hf]
      simp

/-- Over the item loop, if every recursive result satisfies P and every
non-folder item's tuple satisfies P, every emitted tuple satisfies P. -/
theorem processItems_mem
    (recurse : String → Option (List String) →
      PyResult (Option (List FileMeta)) × Option (List String) × List Effect)
    (m₀ : Option (List String)) (P : FileMeta → Prop)
    (hrec : ∀ fid, (recurse fid m₀).2.1 = m₀)
    (hrecP : ∀ fid inner, (recurse fid m₀).1 = PyResult.ok (some inner) →
      ∀ fm ∈ inner, P fm) :
    ∀ items, (∀ it ∈ items, it.mimeType ≠ folderMimeType → P (itemMeta it)) →
      ∀ metas, (processItems recurse items m₀).1 = PyResult.ok metas →
      ∀ fm ∈ metas, P fm := by
  intro items
  induction items with
  | nil =>
    intro hit metas h fm hfm
    simp only [processItems] at h
    cases h
    simp at hfm
  | cons a rest ih =>
    intro hit metas h fm hfm
    by_cases hf : a.mimeType = folderMimeType
    · simp only [processItems, if_pos hf] at h
      cases hr : recurse a.id m₀ with
      | mk r1 ms =>
        obtain ⟨m1, effs1⟩ := ms
        rw [hr] at h
        have hm : m1 = m₀ := by
          have h1 := hrec a.id
          rw [hr] at h1
          exact h1
        cases r1 with
        | timeout => simp at h
        | raised e => simp at h
        | ok v =>
          cases v with
          | none => simp at h
          | some metas1 =>
            simp only at h
            rw [hm] at h
            cases hrest : processItems recurse rest m₀ with
            | mk r2 ms2 =>
              obtain ⟨m2, effs2⟩ := ms2
              rw [hrest] at h
              cases r2 with
              | timeout => simp at h
              | raised e => simp at h
              | ok tail =>
                simp only [PyResult.ok.injEq] at h
                subst h
                rcases List.mem_append.mp hfm with hl | hr2
                · exact hrecP a.id metas1 (by rw [hr]) fm hl
                · exact ih (fun it hi => hit it (List.mem_cons_of_mem a hi)) tail
                    (by rw [hrest]) fm hr2
    · simp only [processItems, if_neg hf] at h
      cases hrest : processItems recurse rest m₀ with
      | mk r2 ms2 =>
        obtain ⟨m2, effs2⟩ := ms2
        rw [hrest] at h
        cases r2 with
        | timeout => simp at h
        | raised e => simp at h
        | ok tail =>
          simp only [PyResult.ok.injEq] at h
          subst h
          rcases List.mem_cons.mp hfm with rfl | hr2
          · exact hit a (List.mem_cons_self a rest) hf
          · exact ih (fun it hi => hit it (List.mem_cons_of_mem a hi)) tail
              (by rw [hrest]) fm hr2

/-- Over the item loop, every folder item's recursive enumeration succeeded
and its results are contained in the loop's output. -/
theorem processItems_sub
    (recurse : String → Option (List String) →
      PyResult (Option (List FileMeta)) × Option (List String) × List Effect)
    (m₀ : Option (List String))
    (hrec : ∀ fid, (recurse fid m₀).2.1 = m₀) :
    ∀ items metas, (processItems recurse items m₀).1 = PyResult.ok metas →
      ∀ it ∈ items, it.mimeType = folderMimeType →
      ∃ inner, (recurse it.id m₀).1 = PyResult.ok (some inner)
        ∧ ∀ fm ∈ inner, fm ∈ metas := by
  intro items
  induction items with
  | nil =>
    intro metas h it hit
    simp at hit
  | cons a rest ih =>
    intro metas h it hit hitf
    by_cases hf : a.mimeType = folderMimeType
    · simp only [processItems, if_pos hf] at h
      cases hr : recurse a.id m₀ with
      | mk r1 ms =>
        obtain ⟨m1, effs1⟩ := ms
        rw [hr] at h
        have hm : m1 = m₀ := by
          have h1 := hrec a.id
          rw [hr] at h1
          exact h1
        cases r1 with
        | timeout => simp at h
        | raised e => simp at h
        | ok v =>
          cases v with
          | none => simp at h
          | some metas1 =>
            simp only at h
            rw [hm] at h
            cases hrest : processItems recurse rest m₀ with
            | mk r2 ms2 =>
              obtain ⟨m2, effs2⟩ := ms2
              rw [hrest] at h
              cases r2 with
              | timeout => simp at h
              | raised e => simp at h
              | ok tail =>
                simp only [PyResult.ok.injEq] at h
                subst h
                rcases List.mem_cons.mp hit with rfl | hit2
                · exact ⟨metas1, by rw [hr],
                    fun fm hfm => List.mem_append_left tail hfm⟩
                · obtain ⟨inner, hi1, hi2⟩ := ih tail (by rw [hrest]) it hit2 hitf
                  exact ⟨inner, hi1,
                    fun fm hfm => List.mem_append_right metas1 (hi2 fm hfm)⟩
    · simp only [processItems, if_neg hf] at h
      cases hrest : processItems recurse rest m₀ with
      | mk r2 ms2 =>
        obtain ⟨m2, effs2⟩ := ms2
        rw [hrest] at h
        cases r2 with
        | timeout => simp at h
        | raised e => simp at h
        | ok tail =>
          simp only [PyResult.ok.injEq] at h
          subst h
          rcases List.mem_cons.mp hit with rfl | hit2
          · exact absurd hitf hf
          · obtain ⟨inner, hi1, hi2⟩ := ih tail (by rw [hrest]) it hit2 hitf
            exact ⟨inner, hi1, fun fm hfm => List.mem_cons_of_mem _ (hi2 fm hfm)⟩

/-- Against the query-honouring provider, every tuple emitted by a successful
folder-mode enumeration with a truthy mime filter has a mimeType in the
(folder-extended) filter list and is not a folder. -/
theorem getFileidsMeta_mem_filter (drive : List DriveNode)
    (qsSem : String → Item → Bool) :
    ∀ fuel (did : Option String) (fid : String) (qs : Option String)
      (L : List String) (metas : List FileMeta),
      L ≠ [] →
      (getFileidsMeta (treeSvc drive qsSem) fuel did (some fid) none (some L) qs).1
        = PyResult.ok (some metas) →
      ∀ fm ∈ metas, fm.mimeType ∈ withFolder L ∧ fm.mimeType ≠ folderMimeType := by
  intro fuel
  induction fuel with
  | zero =>
    intro did fid qs L metas hL h
    simp [getFileidsMeta, getFileidsMetaBody, catchFileids] at h
  | succ n ih =>
    intro did fid qs L metas hL h
    rw [getFileidsMeta, catchFileids_ok_iff] at h
    by_cases hfid : pyTruthyStr (some fid) = true
    · simp only [getFileidsMetaBody, hfid, if_pos, buildFolderQuery,
        pyTruthyList_of_ne_nil hL, Option.getD_some, if_true] at h
      rw [pageLoop_treeSvc] at h
      refine processItems_mem _ (some (withFolder L))
        (fun fm => fm.mimeType ∈ withFolder L ∧ fm.mimeType ≠ folderMimeType)
        (fun fid2 => by
          rw [catchFileids_mts]
          exact getFileidsMetaBody_mts (treeSvc drive qsSem) n did (some fid2) none qs
            (withFolder L) (folder_mem_withFolder L))
        (fun fid2 inner hin fm hfm => ?_)
        (treeList drive qsSem
          { parentId := fid, mimeOr := some (withFolder L), qsOr := qsPart qs })
        (fun it hit hnf => ?_) metas h
      · have := ih did fid2 qs (withFolder L) inner (withFolder_ne_nil L) hin fm hfm
        rwa [withFolder_eq_of_mem (folder_mem_withFolder L)] at this
      · exact ⟨treeList_mime hit rfl, hnf⟩
    · have hfid2 : pyTruthyStr (some fid) = false := by
        cases h2 : pyTruthyStr (some fid)
        · rfl
        · exact absurd h2 hfid
      simp [getFileidsMetaBody, hfid2, treeSvc] at h

/-- C5: for every folder-mode enumeration with a non-empty MIME filter against
a query-honouring provider, every emitted (necessarily non-folder) FileMeta
has a mimeType in the supplied filter list, and every folder child of the
queried folder is still recursed into — the folder mimeType having been added
to the OR-group, the child passes the filter, its recursive enumeration
succeeded with the folder-extended filter, and all of its results are
contained in the final result. -/
theorem C5_mime_filter_and_recursion (drive : List DriveNode)
    (qsSem : String → Item → Bool) (fuel : Nat) (did : Option String)
    (fid : String) (qs : Option String) (L : List String) (metas : List FileMeta)
    (hL : L ≠ [])
    (h : (getFileidsMeta (treeSvc drive qsSem) fuel did (some fid) none (some L) qs).1
      = PyResult.ok (some metas)) :
    (∀ fm ∈ metas, fm.mimeType ∈ L ∧ fm.mimeType ≠ folderMimeType)
    ∧ ∀ nd ∈ drive, nd.parent = fid → nd.item.mimeType = folderMimeType →
      ∃ inner,
        (getFileidsMeta (treeSvc drive qsSem) (fuel - 1) did (some nd.item.id) none
          (some (withFolder L)) qs).1 = PyResult.ok (some inner)
        ∧ ∀ fm ∈ inner, fm ∈ metas := by
  constructor
  · intro fm hfm
    have hmem := getFileidsMeta_mem_filter drive qsSem fuel did fid qs L metas hL h fm hfm
    rcases mem_of_mem_withFolder hmem.1 with heq | hin
    · exact absurd heq hmem.2
    · exact ⟨hin, hmem.2⟩
  · intro nd hnd hp hfm
    cases fuel with
    | zero => simp [getFileidsMeta, getFileidsMetaBody, catchFileids] at h
    | succ n =>
      rw [getFileidsMeta, catchFileids_ok_iff] at h
      by_cases hfid : pyTruthyStr (some fid) = true
      · simp only [getFileidsMetaBody, hfid, if_pos, buildFolderQuery,
          pyTruthyList_of_ne_nil hL, Option.getD_some, if_true] at h
        rw [pageLoop_treeSvc] at h
        have hitem : nd.item ∈ treeList drive qsSem
            { parentId := fid, mimeOr := some (withFolder L), qsOr := qsPart qs } :=
          mem_treeList hnd (nodeMatches_folder hp hfm (folder_mem_withFolder L))
        obtain ⟨inner, hi1, hi2⟩ := processItems_sub _ (some (withFolder L))
          (fun fid2 => by
            rw [catchFileids_mts]
            exact getFileidsMetaBody_mts (treeSvc drive qsSem) n did (some fid2) none qs
              (withFolder L) (folder_mem_withFolder L))
          (treeList drive qsSem
            { parentId := fid, mimeOr := some (withFolder L), qsOr := qsPart qs })
          metas h nd.item hitem hfm
        exact ⟨inner, hi1, hi2⟩
      · have hfid2 : pyTruthyStr (some fid) = false := by
          cases h2 : pyTruthyStr (some fid)
          · rfl
          · exact absurd h2 hfid
        simp [getFileidsMetaBody, hfid2, treeSvc] at h

def qsSemTrue : String → Item → Bool := fun _ _ => true

def itemBtxt : Item :=
  { id := ("B"), name := ("b.txt"), mimeType := ("text/plain"),
    createdTime := ("c2"), modifiedTime := ("m2"),
    ownersFirstDisplayName := ("bob"), hasDriveId := false }

def itemS : Item :=
  { id := ("S"), name := ("sub"), mimeType := folderMimeType,
    createdTime := ("c3"), modifiedTime := ("m3"),
    ownersFirstDisplayName := ("alice"), hasDriveId := false }

def itemC : Item :=
  { id := ("C"), name := ("c.pdf"), mimeType := ("application/pdf"),
    createdTime := ("c4"), modifiedTime := ("m4"),
    ownersFirstDisplayName := ("carol"), hasDriveId := false }

/-- The scenario from the specification: folder F holds PDF A, non-PDF B and
subfolder S; S holds PDF C. -/
def scenarioDrive : List DriveNode :=
  [ { item := itemA, parent := ("F") }, { item := itemBtxt, parent := ("F") },
    { item := itemS, parent := ("F") }, { item := itemC, parent := ("S") } ]

theorem C5_mime_filter_and_recursion_witness :
    (∀ fm ∈ [itemMeta itemA, itemMeta itemC],
      fm.mimeType ∈ [("application/pdf")] ∧ fm.mimeType ≠ folderMimeType)
    ∧ ∀ nd ∈ scenarioDrive, nd.parent = ("F") → nd.item.mimeType = folderMimeType →
      ∃ inner,
        (getFileidsMeta (treeSvc scenarioDrive qsSemTrue) (3 - 1) none (some nd.item.id)
          none (some (withFolder [("application/pdf")])) none).1
          = PyResult.ok (some inner)
        ∧ ∀ fm ∈ inner, fm ∈ [itemMeta itemA, itemMeta itemC] :=
  C5_mime_filter_and_recursion scenarioDrive qsSemTrue 3 none ("F") none
    [("application/pdf")] [itemMeta itemA, itemMeta itemC]
    (by decide) (by decide)

/-! ## Local filesystem model -/

inductive FSEntry where
  | dir (path : String)
  | file (path : String) (content : String)
deriving DecidableEq, Repr

def FSEntry.path : FSEntry → String
  | .dir p => p
  | .file p _ => p

/-- The local filesystem as a list of entries; writes replace entries with the
same path. -/
abbrev FS := List FSEntry

def fsWrite (fs : FS) (p c : String) : FS :=
  FSEntry.file p c :: fs.filter (fun e => !(e.path == p))

/-- Computable character-level prefix test (the library's String.startsWith
does not reduce in the kernel). -/
def charsLead : List Char → List Char → Bool
  | [], _ => true
  | _ :: _, [] => false
  | a :: as, b :: bs => (a == b) && charsLead as bs

def strLeads (pre s : String) : Bool := charsLead pre.data s.data

def underDir (dir p : String) : Bool :=
  p == dir || strLeads (dir ++ ("/")) p

def removeDir (dir : String) (fs : FS) : FS :=
  fs.filter (fun e => !(underDir dir e.path))

def existsUnder (dir : String) (fs : FS) : Bool :=
  fs.any (fun e => underDir dir e.path)

def filesUnder (dir : String) : FS → List (String × String)
  | [] => []
  | FSEntry.dir _ :: rest => filesUnder dir rest
  | FSEntry.file p c :: rest =>
    if strLeads (dir ++ ("/")) p then (p, c) :: filesUnder dir rest
    else filesUnder dir rest

/-! ## File materializer (`_download_file`, base.py lines 310-359) -/

def downloadErrMsg : String := "An error occurred while downloading file"

/-- Body of `_download_file` inside the try (base.py lines 323-355): fetch the
file's metadata; a native Google mimeType gets the mapped export-media request
and the mapped extension appended to the name; any other mimeType a raw
get-media request with the name unchanged; the chunk loop concatenates the
chunks and the result is written to the final name in a single write. -/
def downloadFileBody (svc : Svc) (fileid filename : String) (fs : FS) :
    Except Err (String × FS) × List Effect :=
  match svc.filesGet (some fileid) with
  | .error e => (.error e, [Effect.getFile (some fileid)])
  | .ok file =>
    match dictFind mimetypesTable file.mimeType with
    | some rule =>
      let new_file_name := filename ++ rule.extension
      let request := DlRequest.exportMedia fileid rule.mimetype
      match svc.downloadChunks request with
      | .error e => (.error e, [Effect.getFile (some fileid), Effect.download request])
      | .ok chunks =>
        (.ok (new_file_name, fsWrite fs new_file_name (String.join chunks)),
         [Effect.getFile (some fileid), Effect.download request])
    | none =>
      let request := DlRequest.getMedia fileid
      match svc.downloadChunks request with
      | .error e => (.error e, [Effect.getFile (some fileid), Effect.download request])
      | .ok chunks =>
        (.ok (filename, fsWrite fs filename (String.join chunks)),
         [Effect.getFile (some fileid), Effect.download request])

/-- `_download_file` with its try/except boundary (base.py lines 356-359): on
any failure the error is logged and None is returned. -/
def downloadFile (svc : Svc) (fileid filename : String) (fs : FS) :
    Option String × FS × List Effect :=
  match downloadFileBody svc fileid filename fs with
  | (.ok (n, fs2), effs) => (some n, fs2, effs)
  | (.error _, effs) => (none, fs, effs ++ [Effect.logError downloadErrMsg])

/-- C4: materializing a file whose mimeType is one of the three native Google
types appends the mapped extension (.docx, .xlsx, .pptx) to the base path and
issues an export-media request with the mapped export mimeType; any other
mimeType leaves the base path unchanged and issues a raw get-media request. -/
theorem C4_export_mapping (svc : Svc) (fileid filename : String) (fs : FS)
    (it : Item) (chunks : List String)
    (hget : svc.filesGet (some fileid) = .ok it) :
    (it.mimeType = gdocMimeType →
      svc.downloadChunks (DlRequest.exportMedia fileid docxMimeType) = .ok chunks →
      downloadFile svc fileid filename fs
        = (some (filename ++ (".docx")),
           fsWrite fs (filename ++ (".docx")) (String.join chunks),
           [Effect.getFile (some fileid),
            Effect.download (DlRequest.exportMedia fileid docxMimeType)]))
    ∧ (it.mimeType = gsheetMimeType →
      svc.downloadChunks (DlRequest.exportMedia fileid xlsxMimeType) = .ok chunks →
      downloadFile svc fileid filename fs
        = (some (filename ++ (".xlsx")),
           fsWrite fs (filename ++ (".xlsx")) (String.join chunks),
           [Effect.getFile (some fileid),
            Effect.download (DlRequest.exportMedia fileid xlsxMimeType)]))
    ∧ (it.mimeType = gslidesMimeType →
      svc.downloadChunks (DlRequest.exportMedia fileid pptxMimeType) = .ok chunks →
      downloadFile svc fileid filename fs
        = (some (filename ++ (".pptx")),
           fsWrite fs (filename ++ (".pptx")) (String.join chunks),
           [Effect.getFile (some fileid),
            Effect.download (DlRequest.exportMedia fileid pptxMimeType)]))
    ∧ (it.mimeType ∉ [gdocMimeType, gsheetMimeType, gslidesMimeType] →
      svc.downloadChunks (DlRequest.getMedia fileid) = .ok chunks →
      downloadFile svc fileid filename fs
        = (some filename, fsWrite fs filename (String.join chunks),
           [Effect.getFile (some fileid),
            Effect.download (DlRequest.getMedia fileid)])) := by
  refine ⟨?_, ?_, ?_, ?_⟩
  · intro hm hdl
    simp [downloadFile, downloadFileBody, hget, dictFind, mimetypesTable, hm, hdl]
  · intro hm hdl
    have hne : gdocMimeType ≠ gsheetMimeType := by decide
    simp [downloadFile, downloadFileBody, hget, dictFind, mimetypesTable, hm, hdl, hne]
  · intro hm hdl
    have hne1 : gdocMimeType ≠ gslidesMimeType := by decide
    have hne2 : gsheetMimeType ≠ gslidesMimeType := by decide
    simp [downloadFile, downloadFileBody, hget, dictFind, mimetypesTable, hm, hdl,
      hne1, hne2]
  · intro hm hdl
    simp only [List.mem_cons, List.not_mem_nil, or_false, not_or] at hm
    obtain ⟨h1, h2, h3⟩ := hm
    simp [downloadFile, downloadFileBody, hget, dictFind, mimetypesTable, hdl,
      Ne.symm h1, Ne.symm h2, Ne.symm h3]

def item4 (m : String) : Item :=
  { id := ("X"), name := ("x"), mimeType := m, createdTime := ("c"),
    modifiedTime := ("m"), ownersFirstDisplayName := ("o"), hasDriveId := false }

def svc4 (m : String) : Svc :=
  { filesList := fun _ => .error Err.apiError
    filesGet := fun _ => .ok (item4 m)
    downloadChunks := fun _ => .ok [("data")] }

theorem C4_export_mapping_witness :
    downloadFile (svc4 gdocMimeType) ("X") ("p") []
      = (some (("p") ++ (".docx")), fsWrite [] (("p") ++ (".docx")) (String.join [("data")]),
         [Effect.getFile (some ("X")),
          Effect.download (DlRequest.exportMedia ("X") docxMimeType)])
    ∧ downloadFile (svc4 gsheetMimeType) ("X") ("p") []
      = (some (("p") ++ (".xlsx")), fsWrite [] (("p") ++ (".xlsx")) (String.join [("data")]),
         [Effect.getFile (some ("X")),
          Effect.download (DlRequest.exportMedia ("X") xlsxMimeType)])
    ∧ downloadFile (svc4 gslidesMimeType) ("X") ("p") []
      = (some (("p") ++ (".pptx")), fsWrite [] (("p") ++ (".pptx")) (String.join [("data")]),
         [Effect.getFile (some ("X")),
          Effect.download (DlRequest.exportMedia ("X") pptxMimeType)])
    ∧ downloadFile (svc4 ("text/plain")) ("X") ("p") []
      = (some ("p"), fsWrite [] ("p") (String.join [("data")]),
         [Effect.getFile (some ("X")), Effect.download (DlRequest.getMedia ("X"))]) := by
  refine ⟨?_, ?_, ?_, ?_⟩
  · exact (C4_export_mapping (svc4 gdocMimeType) ("X") ("p") [] (item4 gdocMimeType)
      [("data")] rfl).1 rfl rfl
  · exact (C4_export_mapping (svc4 gsheetMimeType) ("X") ("p") [] (item4 gsheetMimeType)
      [("data")] rfl).2.1 rfl rfl
  · exact (C4_export_mapping (svc4 gslidesMimeType) ("X") ("p") [] (item4 gslidesMimeType)
      [("data")] rfl).2.2.1 rfl rfl
  · exact (C4_export_mapping (svc4 ("text/plain")) ("X") ("p") [] (item4 ("text/plain"))
      [("data")] rfl).2.2.2 (by decide) rfl

/-! ## Document assembler (`_load_data_fileids_meta`, base.py lines 361-407) -/

/-- An output record of the extraction layer: text content, identifier and a
metadata dictionary. -/
structure Document where
  id_ : String
  text : String
  metadata : List (String × String)
deriving DecidableEq, Repr

/-- base.py lines 385-392: the fixed-key metadata object recorded for each
downloaded file. -/
def metaDictOf (m : FileMeta) : List (String × String) :=
  [(("file id"), m.id), (("author"), m.author), (("file name"), m.name),
   (("mime type"), m.mimeType), (("created at"), m.createdTime),
   (("modified at"), m.modifiedTime)]

/-- base.py lines 378-392: the staging loop.  Each tuple's file is downloaded
to tempDir/fileid (a failed download yields the Python value None as final
path, which still receives a metadata entry); the path-to-metadata dict is
keyed by the final path. -/
def stageFiles (svc : Svc) (tempDir : String) :
    List FileMeta → FS → List (Option String × List (String × String)) →
    FS × List (Option String × List (String × String)) × List Effect
  | [], fs, md => (fs, md, [])
  | m :: rest, fs, md =>
    let filepath := tempDir ++ ("/") ++ m.id
    match downloadFile svc m.id filepath fs with
    | (finalOpt, fs2, effs) =>
      let md2 := dictInsert md finalOpt (metaDictOf m)
      match stageFiles svc tempDir rest fs2 md2 with
      | (fs3, md3, effs2) => (fs3, md3, effs ++ effs2)

/-- Modelled from the spec: the generic directory-based extraction layer
(SimpleDirectoryReader, external to this file) receives a directory and a
path-to-metadata lookup callback and returns one parsed document per staged
file, its metadata block obtained from the callback; a callback miss is the
KeyError that `get_metadata` raises on an unknown path. -/
def readDir (cb : String → Option (List (String × String))) :
    List (String × String) → Except Err (List Document)
  | [] => .ok []
  | (p, c) :: rest =>
    match cb p with
    | none => .error Err.keyError
    | some md =>
      match readDir cb rest with
      | .error e => .error e
      | .ok docs => .ok ({ id_ := p, text := c, metadata := md } :: docs)

/-- Body of `_load_data_fileids_meta` inside the with-block (base.py lines
372-401): stage all files, run the extraction layer over the scratch
directory with the metadata lookup, then overwrite each document's identifier
with the file-id value of its own metadata. -/
def loadDataFileidsMetaBody (svc : Svc) (tempDir : String) (metas : List FileMeta)
    (fs : FS) : Except Err (List Document) × FS × List Effect :=
  match stageFiles svc tempDir metas fs [] with
  | (fs2, md, effs) =>
    match readDir (fun p => dictFind md (some p)) (filesUnder tempDir fs2) with
    | .error e => (.error e, fs2, effs)
    | .ok documents =>
      (.ok (documents.map (fun d =>
          { d with id_ := (dictFind d.metadata ("file id")).getD d.id_ })),
       fs2, effs)

def loadFileidsErrMsg : String := "An error occurred while loading data from fileids meta"

/-- `_load_data_fileids_meta` (base.py lines 361-407): allocate the scratch
directory, run the body, remove the directory on every exit path (the
TemporaryDirectory context manager), and catch any escaping exception at the
boundary, logging it and returning None.  A None argument — produced by a
failed enumeration — raises a TypeError when iterated, after the directory was
created; the directory is removed and the except clause logs. -/
def loadDataFileidsMeta (svc : Svc) (tempDir : String)
    (metasOpt : Option (List FileMeta)) (fs : FS) :
    Option (List Document) × FS × List Effect :=
  let fs1 : FS := FSEntry.dir tempDir :: fs
  match metasOpt with
  | none => (none, removeDir tempDir fs1, [Effect.logError loadFileidsErrMsg])
  | some metas =>
    match loadDataFileidsMetaBody svc tempDir metas fs1 with
    | (.ok docs, fs2, effs) => (some docs, removeDir tempDir fs2, effs)
    | (.error _, fs2, effs) =>
      (none, removeDir tempDir fs2, effs ++ [Effect.logError loadFileidsErrMsg])

theorem existsUnder_removeDir (dir : String) (fs : FS) :
    existsUnder dir (removeDir dir fs) = false := by
  induction fs with
  | nil => rfl
  | cons e rest ih =>
    simp only [removeDir, List.filter] at ih ⊢
    cases h : underDir dir e.path with
    | true => simpa using ih
    | false =>
      simp only [Bool.not_false, existsUnder, List.any_cons] at ih ⊢
      simp [h, ih]

/-- C9: after `_load_data_fileids_meta` completes — returning documents or
absorbing an exception raised during materialization or extraction — the
scratch directory and everything under it are gone from the filesystem. -/
theorem C9_scratch_dir_removed (svc : Svc) (tempDir : String)
    (metasOpt : Option (List FileMeta)) (fs : FS) :
    existsUnder tempDir (loadDataFileidsMeta svc tempDir metasOpt fs).2.1 = false := by
  rw [loadDataFileidsMeta.eq_def]
  cases metasOpt with
  | none => exact existsUnder_removeDir tempDir _
  | some metas =>
    simp only
    cases hb : loadDataFileidsMetaBody svc tempDir metas (FSEntry.dir tempDir :: fs) with
    | mk r rest =>
      obtain ⟨fs2, effs⟩ := rest
      cases r with
      | error e => exact existsUnder_removeDir tempDir fs2
      | ok docs => exact existsUnder_removeDir tempDir fs2

/-! ## Identifier round-trip of assembly (C6) -/

theorem dictFind_mem {K V : Type} [DecidableEq K] :
    ∀ (d : List (K × V)) (k : K) (v : V), dictFind d k = some v →
      ∃ e ∈ d, e.1 = k ∧ e.2 = v := by
  intro d
  induction d with
  | nil => intro k v h; simp [dictFind] at h
  | cons e rest ih =>
    intro k v h
    rw [dictFind] at h
    by_cases he : e.1 = k
    · rw [if_pos he] at h
      refine ⟨e, List.mem_cons_self e rest, he, ?_⟩
      injection h
    · rw [if_neg he] at h
      obtain ⟨e2, h1, h2⟩ := ih k v h
      exact ⟨e2, List.mem_cons_of_mem e h1, h2⟩

/-- Every value in the path-to-metadata dict built by the staging loop is the
fixed-key metadata object of one of the supplied tuples. -/
theorem stageFiles_md_values (svc : Svc) (tempDir : String) :
    ∀ (metas : List FileMeta) (fs : FS)
      (md0 : List (Option String × List (String × String))),
      ∀ e ∈ (stageFiles svc tempDir metas fs md0).2.1,
        (∃ m ∈ metas, e.2 = metaDictOf m) ∨ e ∈ md0 := by
  intro metas
  induction metas with
  | nil => intro fs md0 e he; exact Or.inr he
  | cons m rest ih =>
    intro fs md0 e he
    simp only [stageFiles] at he
    cases hd : downloadFile svc m.id (tempDir ++ ("/") ++ m.id) fs with
    | mk finalOpt rest2 =>
      obtain ⟨fs2, effs⟩ := rest2
      rw [hd] at he
      cases hs : stageFiles svc tempDir rest fs2 (dictInsert md0 finalOpt (metaDictOf m)) with
      | mk fs3 rest3 =>
        obtain ⟨md3, effs2⟩ := rest3
        rw [hs] at he
        have hin : e ∈ (stageFiles svc tempDir rest fs2
            (dictInsert md0 finalOpt (metaDictOf m))).2.1 := by
          rw [hs]; exact he
        rcases ih fs2 (dictInsert md0 finalOpt (metaDictOf m)) e hin with hrest | hm0
        · obtain ⟨m2, hm2, hmd⟩ := hrest
          exact Or.inl ⟨m2, List.mem_cons_of_mem m hm2, hmd⟩
        · rcases List.mem_cons.mp hm0 with rfl | hm02
          · exact Or.inl ⟨m, List.mem_cons_self m rest, rfl⟩
          · exact Or.inr hm02

/-- Every document the extraction layer returns got its metadata from the
lookup callback at some path. -/
theorem readDir_mem (cb : String → Option (List (String × String))) :
    ∀ (files : List (String × String)) (documents : List Document),
      readDir cb files = .ok documents →
      ∀ doc ∈ documents, ∃ p, cb p = some doc.metadata := by
  intro files
  induction files with
  | nil =>
    intro documents h doc hdoc
    rw [readDir] at h
    injection h with h2
    subst h2
    simp at hdoc
  | cons pc rest ih =>
    intro documents h doc hdoc
    obtain ⟨p, c⟩ := pc
    rw [readDir] at h
    cases hcb : cb p with
    | none => rw [hcb] at h; exact absurd h (by simp)
    | some md =>
      rw [hcb] at h
      cases hrest : readDir cb rest with
      | error e => rw [hrest] at h; exact absurd h (by simp)
      | ok docs2 =>
        rw [hrest] at h
        injection h with h2
        subst h2
        rcases List.mem_cons.mp hdoc with rfl | hdoc2
        · exact ⟨p, by rw [hcb]⟩
        · exact ih docs2 hrest doc hdoc2

theorem filter_id_length_one :
    ∀ (metas : List FileMeta), (metas.map FileMeta.id).Nodup →
      ∀ (m : FileMeta), m ∈ metas → ∀ (x : String), m.id = x →
      (metas.filter (fun m2 => m2.id == x)).length = 1 := by
  intro metas
  induction metas with
  | nil => intro _ m hm; simp at hm
  | cons a rest ih =>
    intro hn m hm x hx
    simp only [List.map_cons, List.nodup_cons] at hn
    rcases List.mem_cons.mp hm with rfl | hm2
    · have hax : (m.id == x) = true := by simp [hx]
      have hrest : rest.filter (fun m2 => m2.id == x) = [] := by
        rw [List.filter_eq_nil_iff]
        intro m2 hm2
        simp only [beq_iff_eq]
        intro hcontra
        exact hn.1 (hx ▸ hcontra ▸ List.mem_map_of_mem FileMeta.id hm2)
      simp [List.filter_cons, hax, hrest]
    · have hne : (a.id == x) = false := by
        simp only [beq_eq_false_iff_ne]
        intro hcontra
        refine hn.1 ?_
        rw [hcontra, ← hx]
        exact List.mem_map_of_mem FileMeta.id hm2
      rw [List.filter_cons]
      simp only [hne, Bool.false_eq_true, if_false]
      exact ih hn.2 m hm2 x hx

/-- The ids of two distinct metadata tuples that share one file id. -/
def metaX1 : FileMeta :=
  { id := ("X"), author := ("alice"), name := ("n1"), mimeType := ("text/plain"),
    createdTime := ("c"), modifiedTime := ("t") }

def metaX2 : FileMeta :=
  { id := ("X"), author := ("bob"), name := ("n2"), mimeType := ("text/plain"),
    createdTime := ("c"), modifiedTime := ("t") }

def svc6 : Svc :=
  { filesList := fun _ => .error Err.apiError
    filesGet := fun _ => .ok (item4 ("text/plain"))
    downloadChunks := fun _ => .ok [("data")] }

/-- C6 counterexample: assembling two distinct tuples that share the file id X
(both staged to the same path, the second metadata entry shadowing the first)
returns one Document with identifier X, while two supplied FileMeta tuples
carry that id — the identifier does not correspond to exactly one supplied
tuple. -/
theorem C6_counterexample_duplicate_ids :
    (loadDataFileidsMeta svc6 ("tmp") (some [metaX1, metaX2]) []).1
      = some [{ id_ := ("X"), text := ("data"), metadata := metaDictOf metaX2 }]
    ∧ ([metaX1, metaX2].filter (fun m => m.id == ("X"))).length = 2 := by
  constructor
  · rfl
  · rfl

/-- C6 (amended): every Document returned by assembly has its identifier equal
to the FileMeta.id of at least one supplied tuple — so no Document is produced
for a file id that was not among the supplied tuples — and when the supplied
tuples have pairwise distinct ids the identifier matches exactly one of them. -/
theorem C6_document_ids (svc : Svc) (tempDir : String) (metas : List FileMeta)
    (fs : FS) (docs : List Document)
    (h : (loadDataFileidsMeta svc tempDir (some metas) fs).1 = some docs) :
    (∀ doc ∈ docs, ∃ m ∈ metas, doc.id_ = m.id)
    ∧ ((metas.map FileMeta.id).Nodup →
        ∀ doc ∈ docs, (metas.filter (fun m => m.id == doc.id_)).length = 1) := by
  rw [loadDataFileidsMeta.eq_def] at h
  simp only at h
  cases hb : loadDataFileidsMetaBody svc tempDir metas (FSEntry.dir tempDir :: fs) with
  | mk r rest =>
    obtain ⟨fs2, effs⟩ := rest
    rw [hb] at h
    cases r with
    | error e => simp at h
    | ok docs0 =>
      simp only [Option.some.injEq] at h
      subst h
      simp only [loadDataFileidsMetaBody] at hb
      cases hs : stageFiles svc tempDir metas (FSEntry.dir tempDir :: fs) [] with
      | mk fs3 rest3 =>
        obtain ⟨md,
          effs3⟩ := rest3
        rw [hs] at hb
        cases hr : readDir (fun p => dictFind md (some p)) (filesUnder tempDir fs3) with
        | error e => rw [hr] at hb; simp at hb
        | ok documents =>
          rw [hr] at hb
          simp only [Prod.mk.injEq, Except.ok.injEq] at hb
          obtain ⟨hdocs, -, -⟩ := hb
          subst hdocs
          have key : ∀ doc2 ∈ documents.map (fun d =>
              { d with id_ := (dictFind d.metadata (("file id"))).getD d.id_ }),
              ∃ m ∈ metas, doc2.id_ = m.id := by
            intro doc2 hdoc2
            obtain ⟨doc, hdoc, rfl⟩ := List.mem_map.mp hdoc2
            obtain ⟨p, hcb⟩ := readDir_mem _ _ _ hr doc hdoc
            obtain ⟨e, he, hek, hev⟩ := dictFind_mem _ _ _ hcb
            rcases stageFiles_md_values svc tempDir metas (FSEntry.dir tempDir :: fs) []
                e (by rw [hs]; exact he) with hval | habs
            · obtain ⟨m, hm, hmd⟩ := hval
              refine ⟨m, hm, ?_⟩
              show (dictFind doc.metadata (("file id"))).getD doc.id_ = m.id
              rw [← hev, hmd]
              simp [metaDictOf, dictFind]
            · simp at habs
          refine ⟨key, fun hn doc2 hdoc2 => ?_⟩
          obtain ⟨m, hm, hid⟩ := key doc2 hdoc2
          exact filter_id_length_one metas hn m hm doc2.id_ hid.symm

def metaY : FileMeta :=
  { id := ("Y"), author := ("alice"), name := ("n3"), mimeType := ("text/plain"),
    createdTime := ("c"), modifiedTime := ("t") }

theorem C6_document_ids_witness :
    (∀ doc ∈ [{ id_ := ("Y"), text := ("data"), metadata := metaDictOf metaY : Document }],
      ∃ m ∈ [metaY], doc.id_ = m.id)
    ∧ (([metaY].map FileMeta.id).Nodup →
        ∀ doc ∈ [{ id_ := ("Y"), text := ("data"), metadata := metaDictOf metaY : Document }],
        ([metaY].filter (fun m => m.id == doc.id_)).length = 1) :=
  C6_document_ids svc6 ("tmp") [metaY] []
    [{ id_ := ("Y"), text := ("data"), metadata := metaDictOf metaY }] rfl

/-! ## Top-level orchestration (`load_data` and helpers, base.py lines 409-504) -/

def folderErrMsg : String := "An error occurred while loading from folder"

/-- `_load_from_folder` (base.py lines 442-471): enumerate then assemble.  Its
own try/except would log and return None for an escaping exception (both
callees already catch their own). -/
def loadFromFolder (svc : Svc) (fuel : Nat) (tempDir : String) (fs : FS)
    (drive_id : Option String) (folder_id : String) (mts : Option (List String))
    (qs : Option String) :
    PyResult (Option (List Document)) × Option (List String) × FS × List Effect :=
  match getFileidsMeta svc fuel drive_id (some folder_id) none mts qs with
  | (.timeout, m, effs) => (.timeout, m, fs, effs)
  | (.raised _, m, effs) => (.ok none, m, fs, effs ++ [Effect.logError folderErrMsg])
  | (.ok metasOpt, m, effs) =>
    match loadDataFileidsMeta svc tempDir metasOpt fs with
    | (docsOpt, fs2, effs2) => (.ok docsOpt, m, fs2, effs ++ effs2)

def fileidErrMsg : String := "An error occurred while loading with fileid"

/-- base.py lines 426-435: the per-file-id metadata accumulation loop; a None
result from `_get_fileids_meta` makes fileids_meta.extend raise a TypeError. -/
def gatherFileIds (svc : Svc) (fuel : Nat) (drive_id : Option String)
    (qs : Option String) :
    List String → Option (List String) →
    PyResult (List FileMeta) × Option (List String) × List Effect
  | [], m => (.ok [], m, [])
  | fid :: rest, m =>
    match getFileidsMeta svc fuel drive_id none (some fid) m qs with
    | (.timeout, m2, effs) => (.timeout, m2, effs)
    | (.raised e, m2, effs) => (.raised e, m2, effs)
    | (.ok none, m2, effs) => (.raised Err.typeError, m2, effs)
    | (.ok (some l), m2, effs) =>
      match gatherFileIds svc fuel drive_id qs rest m2 with
      | (.ok tail, m3, effs2) => (.ok (l ++ tail), m3, effs ++ effs2)
      | (r, m3, effs2) => (r, m3, effs ++ effs2)

/-- `_load_from_file_ids` (base.py lines 409-440): gather every id's metadata
(an escaping TypeError is logged and turned into None) and assemble. -/
def loadFromFileIds (svc : Svc) (fuel : Nat) (tempDir : String) (fs : FS)
    (drive_id : Option String) (file_ids : List String)
    (mts : Option (List String)) (qs : Option String) :
    PyResult (Option (List Document)) × Option (List String) × FS × List Effect :=
  match gatherFileIds svc fuel drive_id qs file_ids mts with
  | (.timeout, m, effs) => (.timeout, m, fs, effs)
  | (.raised _, m, effs) => (.ok none, m, fs, effs ++ [Effect.logError fileidErrMsg])
  | (.ok metas, m, effs) =>
    match loadDataFileidsMeta svc tempDir (some metas) fs with
    | (docsOpt, fs2, effs2) => (.ok docsOpt, m, fs2, effs ++ effs2)

/-- `load_data` (base.py lines 473-504): always resolve credentials first,
then dispatch on a truthy folder_id, else truthy file_ids, else log a warning
and return the empty list. -/
def loadData (r : Reader) (svc : Svc) (fuel : Nat) (tempDir : String) (fs : FS)
    (drive_id folder_id : Option String) (file_ids : Option (List String))
    (mime_types : Option (List String)) (query_string : Option String) :
    PyResult (Option (List Document)) × Option (List String) × FS × List Effect :=
  let ce := getCredentials r
  if pyTruthyStr folder_id then
    match loadFromFolder svc fuel tempDir fs drive_id (folder_id.getD ("")) mime_types
        query_string with
    | (res, m, fs2, effs) => (res, m, fs2, ce.2 ++ effs)
  else if pyTruthyList file_ids then
    match loadFromFileIds svc fuel tempDir fs drive_id (file_ids.getD []) mime_types
        query_string with
    | (res, m, fs2, effs) => (res, m, fs2, ce.2 ++ effs)
  else
    (.ok (some []), mime_types, fs, ce.2 ++ [Effect.logWarning])

def svcErr : Svc :=
  { filesList := fun _ => .error Err.apiError
    filesGet := fun _ => .error Err.apiError
    downloadChunks := fun _ => .error Err.apiError }

/-- C7 counterexample: the claim says no remote calls are made, but load_data
resolves credentials before inspecting the selectors; with a non-cloud reader
holding an expired refreshable saved credential, a call with neither folder_id
nor file_ids still performs a remote token-refresh request — while logging the
warning and returning the empty list. -/
theorem C7_counterexample_remote_call :
    (loadData readerNonCloud svcErr 1 ("tmp") [] none none none none none).1
      = PyResult.ok (some [])
    ∧ Effect.logWarning
        ∈ (loadData readerNonCloud svcErr 1 ("tmp") [] none none none none none).2.2.2
    ∧ ((loadData readerNonCloud svcErr 1 ("tmp") [] none none none none none).2.2.2.any
        Effect.isRemote) = true := by
  refine ⟨rfl, ?_, rfl⟩
  decide

theorem tokenWriteEffects_no_drive (r : Reader) :
    ∀ e ∈ tokenWriteEffects r, e.isDriveCall = false := by
  intro e he
  rw [tokenWriteEffects] at he
  split at he
  · simp at he
  · simp at he
    subst he
    rfl

theorem finishUserCred_no_drive (r : Reader) (c : Option UserCred) :
    ∀ e ∈ (finishUserCred r c).2, e.isDriveCall = false := by
  intro e he
  cases c with
  | none =>
    rw [finishUserCred.eq_def] at he
    simp only at he
    rcases List.mem_cons.mp he with rfl | h2
    · rfl
    · exact tokenWriteEffects_no_drive r e h2
  | some uc =>
    rw [finishUserCred.eq_def] at he
    simp only at he
    split at he
    · simp at he
    · split at he
      · rcases List.mem_cons.mp he with rfl | h2
        · rfl
        · exact tokenWriteEffects_no_drive r e h2
      · rcases List.mem_cons.mp he with rfl | h2
        · rfl
        · exact tokenWriteEffects_no_drive r e h2

theorem getCredentials_no_drive (r : Reader) :
    ∀ e ∈ (getCredentials r).2, e.isDriveCall = false := by
  intro e he
  rw [getCredentials] at he
  cases hinfo : r.authorized_user_info with
  | some info =>
    rw [hinfo] at he
    exact finishUserCred_no_drive r (some info) e he
  | none =>
    rw [hinfo] at he
    cases hk : r.service_account_key with
    | true =>
      simp only [hk, if_true] at he
      simp at he
    | false =>
      simp only [hk, Bool.false_eq_true, if_false] at he
      exact finishUserCred_no_drive r none e he

/-- C7 (amended): called with neither a truthy folder_id nor truthy file_ids,
load_data logs a warning and returns the empty list (not an error), and issues
no Drive API call (no listing, metadata or download request); the only effects
are those of the credential resolution that load_data unconditionally runs
first, which may itself contact the auth server (refresh or consent flow). -/
theorem C7_no_selector_returns_empty (r : Reader) (svc : Svc) (fuel : Nat)
    (tempDir : String) (fs : FS) (did fold : Option String)
    (fids : Option (List String)) (mts : Option (List String)) (qs : Option String)
    (hf : pyTruthyStr fold = false) (hl : pyTruthyList fids = false) :
    loadData r svc fuel tempDir fs did fold fids mts qs
      = (.ok (some []), mts, fs, (getCredentials r).2 ++ [Effect.logWarning])
    ∧ ∀ e ∈ (getCredentials r).2, e.isDriveCall = false := by
  constructor
  · simp [loadData, hf, hl]
  · exact getCredentials_no_drive r

theorem C7_no_selector_returns_empty_witness :
    loadData readerServiceKey svcErr 1 ("tmp") [] none none (some []) none none
      = (.ok (some []), none, [], (getCredentials readerServiceKey).2 ++ [Effect.logWarning])
    ∧ ∀ e ∈ (getCredentials readerServiceKey).2, e.isDriveCall = false :=
  C7_no_selector_returns_empty readerServiceKey svcErr 1 ("tmp") [] none none
    (some []) none none rfl rfl

theorem pyTruthyStr_of_ne {s : String} (h : s ≠ ("")) : pyTruthyStr (some s) = true := by
  simp [pyTruthyStr, h]

/-- C10: a folder-mode enumeration over a non-empty mime_types list that does
not contain the folder mimeType mutates the caller's list object: afterwards —
also after load_data returns — the shared list holds the original elements
with the folder mimeType appended. -/
theorem C10_mime_types_list_mutated (svc : Svc) (fuel : Nat) (did : Option String)
    (fid : String) (qs : Option String) (L : List String)
    (hfid : fid ≠ ("")) (hL : L ≠ []) (hfolder : folderMimeType ∉ L) :
    ((getFileidsMeta svc (fuel + 1) did (some fid) none (some L) qs).2.1
        = some (L ++ [folderMimeType]))
    ∧ ∀ (r : Reader) (tempDir : String) (fs : FS),
        (loadData r svc (fuel + 1) tempDir fs did (some fid) none (some L) qs).2.1
          = some (L ++ [folderMimeType]) := by
  have hfo : pyTruthyStr (some fid) = true := pyTruthyStr_of_ne hfid
  have hwf : withFolder L = L ++ [folderMimeType] := by rw [withFolder, if_neg hfolder]
  have h1 : (getFileidsMeta svc (fuel + 1) did (some fid) none (some L) qs).2.1
      = some (L ++ [folderMimeType]) := by
    rw [getFileidsMeta, catchFileids_mts,
      getFileidsMetaBody_mts_succ svc fuel did (some fid) none qs L hfo hL, hwf]
  refine ⟨h1, ?_⟩
  intro r tempDir fs
  have h3 : ∀ (tempDir2 : String) (fs2 : FS),
      (loadFromFolder svc (fuel + 1) tempDir2 fs2 did fid (some L) qs).2.1
        = some (L ++ [folderMimeType]) := by
    intro tempDir2 fs2
    rw [loadFromFolder.eq_def]
    cases hg : getFileidsMeta svc (fuel + 1) did (some fid) none (some L) qs with
    | mk r1 ms =>
      obtain ⟨m, effs⟩ := ms
      have hm : m = some (L ++ [folderMimeType]) := by
        rw [hg] at h1
        exact h1
      subst hm
      cases r1 with
      | timeout => rfl
      | raised e => rfl
      | ok metasOpt => simp only
  simp only [loadData, hfo, if_true, Option.getD_some]
  cases hlf : loadFromFolder svc (fuel + 1) tempDir fs did fid (some L) qs with
  | mk res ms =>
    obtain ⟨m, fs2, effs⟩ := ms
    have := h3 tempDir fs
    rw [hlf] at this
    exact this

theorem C10_mime_types_list_mutated_witness :
    ((getFileidsMeta (pagedSvc [] none) (0 + 1) none (some ("F")) none
        (some [("application/pdf")]) none).2.1
      = some ([("application/pdf")] ++ [folderMimeType]))
    ∧ ∀ (r : Reader) (tempDir : String) (fs : FS),
        (loadData r (pagedSvc [] none) (0 + 1) tempDir fs none (some ("F")) none
          (some [("application/pdf")]) none).2.1
          = some ([("application/pdf")] ++ [folderMimeType]) :=
  C10_mime_types_list_mutated (pagedSvc [] none) 0 none ("F") none
    [("application/pdf")] (by decide) (by decide) (by decide)

/-- C3: every exception escaping the body of enumeration (`_get_fileids_meta`),
materialization (`_download_file`) or assembly (`_load_data_fileids_meta`) is
caught at that operation's try/except boundary, logged, and converted into the
absent result None rather than propagating to the caller. -/
theorem C3_failures_caught_at_boundary :
    (∀ (svc : Svc) (fuel : Nat) (did fo fi : Option String)
        (mts : Option (List String)) (qs : Option String) (e : Err)
        (m : Option (List String)) (effs : List Effect),
        getFileidsMetaBody svc fuel did fo fi mts qs = (.raised e, m, effs) →
        getFileidsMeta svc fuel did fo fi mts qs
          = (.ok none, m, effs ++ [Effect.logError fileidsMetaErrMsg]))
    ∧ (∀ (svc : Svc) (fileid filename : String) (fs : FS) (e : Err)
        (effs : List Effect),
        downloadFileBody svc fileid filename fs = (.error e, effs) →
        downloadFile svc fileid filename fs
          = (none, fs, effs ++ [Effect.logError downloadErrMsg]))
    ∧ (∀ (svc : Svc) (tempDir : String) (metas : List FileMeta) (fs : FS)
        (e : Err) (fs2 : FS) (effs : List Effect),
        loadDataFileidsMetaBody svc tempDir metas (FSEntry.dir tempDir :: fs)
          = (.error e, fs2, effs) →
        loadDataFileidsMeta svc tempDir (some metas) fs
          = (none, removeDir tempDir fs2,
             effs ++ [Effect.logError loadFileidsErrMsg])) := by
  refine ⟨?_, ?_, ?_⟩
  · intro svc fuel did fo fi mts qs e m effs h
    rw [getFileidsMeta, h]
    rfl
  · intro svc fileid filename fs e effs h
    rw [downloadFile.eq_def, h]
  · intro svc tempDir metas fs e fs2 effs h
    rw [loadDataFileidsMeta.eq_def]
    simp only
    rw [h]

theorem C3_failures_caught_at_boundary_witness :
    getFileidsMeta svcErr 1 none (some ("f")) none none none
      = (.ok none, none,
         [Effect.listFiles
             { q := { parentId := ("f"), mimeOr := none, qsOr := none }, driveId := none }]
           ++ [Effect.logError fileidsMetaErrMsg])
    ∧ downloadFile svcErr ("x") ("p") []
      = (none, [], [Effect.getFile (some ("x"))] ++ [Effect.logError downloadErrMsg])
    ∧ loadDataFileidsMeta svcErr ("tmp") (some []) [FSEntry.file ("tmp/z") ("c")]
      = (none, removeDir ("tmp") [FSEntry.dir ("tmp"), FSEntry.file ("tmp/z") ("c")],
         [] ++ [Effect.logError loadFileidsErrMsg]) := by
  refine ⟨?_, ?_, ?_⟩
  · exact C3_failures_caught_at_boundary.1 svcErr 1 none (some ("f")) none none none
      Err.apiError none _ rfl
  · exact C3_failures_caught_at_boundary.2.1 svcErr ("x") ("p") [] Err.apiError _ rfl
  · exact C3_failures_caught_at_boundary.2.2 svcErr ("tmp") []
      [FSEntry.file ("tmp/z") ("c")] Err.keyError _ _ rfl

end GDrive
